import Mathlib

/-!
Verification of the Chango Editor text-manipulation core against its
natural-language specification.

The definitions below are shallow embeddings of the Python source:
  * `src/core/editor.py`   — `TextEditor.replace_all`, `load_file`, `save`,
    `save_as`, `_save_to_file`
  * `src/ui/search_dialog.py` — `SearchDialog._find_all_matches`
  * `src/ui/tab_widget.py` — `TabWidget.open_file`, `new_tab`
  * `src/core/i18n.py`     — `I18nManager.tr`, `set_locale`
  * `src/utils/themes.py`  — `ThemeManager.set_theme`, `get_theme_stylesheet`

Python strings are modelled as `List Char`; Python dicts as association
lists in insertion order; fallible operations return `Option`.
-/

set_option maxHeartbeats 1000000

/-- Case key used for text comparison: the identity when `case_sensitive`
is true, per-character lower-casing (modelling `str.lower` /
`re.IGNORECASE` on the ASCII range) otherwise. -/
def keyChars (case_sensitive : Bool) (s : List Char) : List Char :=
  if case_sensitive then s else s.map Char.toLower

/-- `matchesAt cs needle text` is true when `needle` occurs at the start
of `text`, compared case-sensitively or not according to `cs`.  This is
the per-position content of `re.finditer(re.escape(needle), ·)` with the
optional `re.IGNORECASE` flag in `TextEditor.replace_all`
(src/core/editor.py lines 629-631). -/
def matchesAt (cs : Bool) (needle text : List Char) : Bool :=
  keyChars cs needle == keyChars cs (text.take needle.length)

/-- Start positions of the non-overlapping, leftmost-first occurrences of
`needle` in `text`, offset by `pos`: the spans produced by
`pattern.finditer(doc_text)` in `TextEditor.replace_all`
(src/core/editor.py line 630).  After a match of length `k ≥ 1` the scan
resumes `k` characters further (`rest.drop (needle.length - 1)` is
`(c :: rest).drop needle.length` for a non-empty needle). -/
def occsFrom (cs : Bool) (needle : List Char) : List Char → Nat → List Nat
  | [], _ => []
  | c :: rest, pos =>
    if matchesAt cs needle (c :: rest) then
      pos :: occsFrom cs needle (rest.drop (needle.length - 1)) (pos + needle.length)
    else
      occsFrom cs needle rest (pos + 1)
termination_by t _ => t.length
decreasing_by
  · simp only [List.length_drop, List.length_cons]
    omega
  · simp only [List.length_cons]
    omega

/-- One replacement step of `TextEditor.replace_all`
(src/core/editor.py line 638):
`new_text = new_text[:start] + replace_text + new_text[end:]` with
`end = start + flen`. -/
def spliceOne (repl : List Char) (flen : Nat) (text : List Char) (start : Nat) : List Char :=
  text.take start ++ repl ++ text.drop (start + flen)

/-- The reverse-order replacement loop of `TextEditor.replace_all`
(src/core/editor.py lines 634-638): splice `repl` in at each recorded
start position, from the last occurrence back to the first. -/
def spliceAll (repl : List Char) (flen : Nat) (ms : List Nat) (text : List Char) : List Char :=
  ms.reverse.foldl (fun acc s => spliceOne repl flen acc s) text

/-- A single left-to-right pass that replaces the same non-overlapping
occurrences as they are met.  This is the specification-side description
("the string obtained by a single left-to-right pass that replaces those
same occurrences"); it is also the behaviour of Python `str.replace`,
used here for the case-sensitive branch of `replace_all`
(src/core/editor.py line 624). -/
def ltrPass (cs : Bool) (needle repl : List Char) : List Char → List Char
  | [] => []
  | c :: rest =>
    if matchesAt cs needle (c :: rest) then
      repl ++ ltrPass cs needle repl (rest.drop (needle.length - 1))
    else
      c :: ltrPass cs needle repl rest
termination_by t => t.length
decreasing_by
  · simp only [List.length_drop, List.length_cons]
    omega
  · simp only [List.length_cons]
    omega

/-- `TextEditor.replace_all` (src/core/editor.py lines 570-642) for the
plain-text path (`regex=False`, `whole_words=False`), returning the new
document text and the reported count.  The empty search string returns
immediately with count 0 (lines 572-573).  The case-sensitive branch
models `doc_text.replace(find_text, replace_text)` and
`doc_text.count(find_text)` (lines 623-625); the case-insensitive branch
collects the `re.IGNORECASE` match spans and splices the replacement in
reverse order (lines 627-641). -/
def replace_all (find_text replace_text : List Char) (case_sensitive : Bool)
    (doc_text : List Char) : List Char × Nat :=
  if find_text = [] then (doc_text, 0)
  else if case_sensitive then
    (ltrPass true find_text replace_text doc_text,
     (occsFrom true find_text doc_text 0).length)
  else
    let ms := occsFrom false find_text doc_text 0
    (spliceAll replace_text find_text.length ms doc_text, ms.length)

/-- The simple-text branch of `SearchDialog._find_all_matches`
(src/ui/search_dialog.py lines 380-387): the loop
`pos = target_text.find(search_text, start); matches.append((pos, pos + len(text))); start = pos + 1`
enumerates, in increasing order of position, every position where the
(possibly case-folded) search text occurs — overlapping occurrences
included, because the scan advances only one character past each found
start. -/
def findScan (cs : Bool) (search : List Char) : List Char → Nat → List (Nat × Nat)
  | [], _ => []
  | c :: rest, pos =>
    if matchesAt cs search (c :: rest) then
      (pos, pos + search.length) :: findScan cs search rest (pos + 1)
    else
      findScan cs search rest (pos + 1)

/-- `SearchDialog._find_all_matches` (src/ui/search_dialog.py lines
345-393) for the plain-text path (`regex` and `whole_words` unchecked):
an empty search text returns no matches (line 347), otherwise the
document is scanned for all (overlapping) occurrences. -/
def find_all_matches (text doc_text : List Char) (case_sensitive : Bool) :
    List (Nat × Nat) :=
  if text = [] then [] else findScan case_sensitive text doc_text 0

/-- A file path; in the Python source a plain string. -/
abbrev PathStr := List Char

/-- The text encodings `TextEditor` uses: UTF-8 first, GBK as fallback
(src/core/editor.py lines 353-362). -/
inductive Encoding where
  | utf8
  | gbk
deriving DecidableEq, Repr

/-- What an existing file decodes to under each attempted encoding:
`none` models a `UnicodeDecodeError` for that encoding. -/
structure RawFile where
  utf8 : Option (List Char)
  gbk : Option (List Char)
deriving DecidableEq, Repr

/-- The file system seen by `open(file_path, 'r', encoding=...)`: `none`
models a non-decode read error (e.g. `FileNotFoundError`). -/
abbrev FileSys := PathStr → Option RawFile

/-- The file-related state of a `TextEditor` (src/core/editor.py lines
52-53 and the document text / modified flag): `file_path` is `None` for
an unsaved buffer, `file_encoding` starts as `'utf-8'`. -/
structure EditorState where
  text : List Char
  file_path : Option PathStr
  file_encoding : Encoding
  modified : Bool
deriving DecidableEq, Repr

/-- `TextEditor.load_file` (src/core/editor.py lines 350-378): try the
file as UTF-8; on a `UnicodeDecodeError` retry as GBK; on success set the
document text, the file path and the surviving encoding and clear the
modified flag, returning `True`; on any failure return `False` leaving
the state untouched.  A non-decode error on the first open (the outer
`except Exception`, line 366) fails without attempting GBK. -/
def load_file (fs : FileSys) (st : EditorState) (path : PathStr) :
    EditorState × Bool :=
  match fs path with
  | none => (st, false)
  | some f =>
    match f.utf8 with
    | some content =>
      ({ text := content, file_path := some path,
         file_encoding := Encoding.utf8, modified := false }, true)
    | none =>
      match f.gbk with
      | some content =>
        ({ text := content, file_path := some path,
           file_encoding := Encoding.gbk, modified := false }, true)
      | none => (st, false)

/-- A write issued by `_save_to_file` (src/core/editor.py line 413):
`open(file_path, 'w', encoding=self.file_encoding)` followed by
`f.write(content)`. -/
structure WriteOp where
  path : PathStr
  content : List Char
  encoding : Encoding
deriving DecidableEq, Repr

/-- The observable outcome of a save operation: whether the Save-As file
dialog (`QFileDialog.getSaveFileName`, src/core/editor.py line 390) was
opened, the attempted file write if any, the resulting editor state, and
the boolean result. -/
structure SaveOutcome where
  openedSaveDialog : Bool
  write : Option WriteOp
  state : EditorState
  ok : Bool
deriving DecidableEq, Repr

/-- Python truthiness of an optional path: `None` and the empty string
are falsy (`if not self.file_path`, `if file_path`). -/
def truthyPath : Option PathStr → Bool
  | none => false
  | some p => decide (p ≠ [])

/-- `TextEditor._save_to_file` (src/core/editor.py lines 409-428): write
the document text at the given path using the editor's current
`file_encoding`; on success clear the modified flag and return `True`,
on a write error leave the state unchanged and return `False`.  The
write attempt itself (with its encoding) is recorded either way. -/
def save_to_file (st : EditorState) (path : PathStr) (writeOk : Bool) :
    SaveOutcome :=
  if writeOk then
    { openedSaveDialog := false,
      write := some { path := path, content := st.text, encoding := st.file_encoding },
      state := { st with modified := false }, ok := true }
  else
    { openedSaveDialog := false,
      write := some { path := path, content := st.text, encoding := st.file_encoding },
      state := st, ok := false }

/-- `TextEditor.save_as` (src/core/editor.py lines 387-407): when called
without a truthy path, open the Save-As dialog and use its result
(`dialogResult`, the empty string modelling a cancelled dialog); if the
chosen path is truthy, delegate to `_save_to_file` and on success record
the new file path; otherwise return `False` with no write. -/
def save_as (st : EditorState) (file_path : Option PathStr)
    (dialogResult : PathStr) (writeOk : Bool) : SaveOutcome :=
  let opened := !truthyPath file_path
  let fp := if truthyPath file_path then file_path.getD [] else dialogResult
  if fp ≠ [] then
    let sto := save_to_file st fp writeOk
    if sto.ok then
      { openedSaveDialog := opened, write := sto.write,
        state := { sto.state with file_path := some fp }, ok := true }
    else
      { openedSaveDialog := opened, write := sto.write, state := sto.state, ok := false }
  else
    { openedSaveDialog := opened, write := none, state := st, ok := false }

/-- `TextEditor.save` (src/core/editor.py lines 380-385): with no truthy
backing path, delegate to `save_as` (which opens the dialog); otherwise
write directly to the backing path. -/
def save (st : EditorState) (dialogResult : PathStr) (writeOk : Bool) :
    SaveOutcome :=
  if !truthyPath st.file_path then save_as st none dialogResult writeOk
  else save_to_file st (st.file_path.getD []) writeOk

/-- `TabWidget` bookkeeping (src/ui/tab_widget.py lines 52-56): the
index-to-editor/path dictionaries (`self.file_paths = {index: file_path}`,
kept here in insertion order), the index the next `addTab` returns, the
current tab index, and the untitled-file counter. -/
structure TabState where
  file_paths : List (Nat × Option PathStr)
  nextIndex : Nat
  current : Nat
  untitled_count : Nat
deriving DecidableEq, Repr

/-- The duplicate check of `TabWidget.open_file` (src/ui/tab_widget.py
lines 130-134): a linear scan
`for index, path in self.file_paths.items(): if path == file_path: ...`
returning the first tab index whose recorded path equals the argument. -/
def findTabByPath : List (Nat × Option PathStr) → PathStr → Option Nat
  | [], _ => none
  | (i, q) :: rest, p => if q = some p then some i else findTabByPath rest p

/-- `TabWidget.new_tab` bookkeeping (src/ui/tab_widget.py lines 63-126):
a falsy path argument (None or the empty string) is normalised to `None`
and counts as an untitled file (lines 73-83); the tab is appended at the
index `addTab` returns (the previous tab count), recorded in
`file_paths`, and made current. -/
def new_tab (st : TabState) (file_path : Option PathStr) : TabState :=
  let fp : Option PathStr :=
    match file_path with
    | some p => if p = [] then none else some p
    | none => none
  { file_paths := st.file_paths ++ [(st.nextIndex, fp)],
    nextIndex := st.nextIndex + 1,
    current := st.nextIndex,
    untitled_count := if fp.isSome then st.untitled_count else st.untitled_count + 1 }

/-- The read half of `TabWidget.open_file` (src/ui/tab_widget.py lines
136-165): UTF-8 first, then GBK on a decode error; `none` is any failed
read. -/
def readWithFallback (fs : FileSys) (path : PathStr) : Option (List Char) :=
  match fs path with
  | none => none
  | some f =>
    match f.utf8 with
    | some c => some c
    | none => f.gbk

/-- `TabWidget.open_file` (src/ui/tab_widget.py lines 128-168): if the
path is already among the recorded tab paths, just make that tab current
and return `True`; otherwise read the file (UTF-8 then GBK) and create a
new tab on success, or return `False` leaving the state unchanged. -/
def open_file (fs : FileSys) (st : TabState) (path : PathStr) : TabState × Bool :=
  match findTabByPath st.file_paths path with
  | some i => ({ st with current := i }, true)
  | none =>
    match readWithFallback fs path with
    | some _content => (new_tab st (some path), true)
    | none => (st, false)

/-- A freshly constructed `TabWidget` (src/ui/tab_widget.py lines 52-56):
no tabs, no recorded paths. -/
def initTabState : TabState :=
  { file_paths := [], nextIndex := 0, current := 0, untitled_count := 0 }

/-- The tab state reached from a fresh `TabWidget` by a sequence of
`open_file` calls (each with the file system as seen at that call). -/
def runOpens (calls : List (FileSys × PathStr)) : TabState :=
  calls.foldl (fun st c => (open_file c.1 st c.2).1) initTabState

/-- Each non-`None` recorded path belongs to at most one tab index. -/
def UniqueTabPaths (fp : List (Nat × Option PathStr)) : Prop :=
  ∀ i j p, (i, some p) ∈ fp → (j, some p) ∈ fp → i = j

mutual
/-- A JSON value as consumed from locale and theme documents
(src/core/i18n.py, src/utils/themes.py): a string, or an object kept as
its entry list in insertion order.  These two shapes are the ones the
shipped documents use and the code's dictionary walks distinguish. -/
inductive TransVal where
  | str (s : List Char) : TransVal
  | dict (entries : TransEntries) : TransVal
deriving DecidableEq
/-- The entries of a JSON object, in insertion order (Python 3.7+ dicts
preserve it). -/
inductive TransEntries where
  | nil : TransEntries
  | cons (key : List Char) (val : TransVal) (rest : TransEntries) : TransEntries
deriving DecidableEq
end

/-- The single-quote character, written by code point to keep string
literals plain. -/
def squoteChar : Char := Char.ofNat 39

/-- The opening curly brace, by code point. -/
def lbrace : Char := Char.ofNat 123

/-- The closing curly brace, by code point. -/
def rbrace : Char := Char.ofNat 125

mutual
/-- Python `repr` of a JSON value, as produced by `str(value)` on a dict
(single-quoted keys and strings, `': '` and `', '` separators). -/
def reprVal : TransVal → List Char
  | TransVal.str s => squoteChar :: (s ++ [squoteChar])
  | TransVal.dict es => lbrace :: (reprEntries es ++ [rbrace])
/-- Python `repr` of the entries of a dict, comma-separated. -/
def reprEntries : TransEntries → List Char
  | TransEntries.nil => []
  | TransEntries.cons k v TransEntries.nil =>
    (squoteChar :: (k ++ [squoteChar])) ++ (':' :: ' ' :: reprVal v)
  | TransEntries.cons k v (TransEntries.cons k2 v2 rest) =>
    (squoteChar :: (k ++ [squoteChar])) ++
      (':' :: ' ' :: (reprVal v ++ (',' :: ' ' :: reprEntries (TransEntries.cons k2 v2 rest))))
end

/-- Python `str()` of a JSON value: a string is itself, a dict is its
`repr`. -/
def pyStr : TransVal → List Char
  | TransVal.str s => s
  | TransVal.dict es => reprVal (TransVal.dict es)

/-- Dict lookup by key (`value[k]` / `dict.get`), first match in
insertion order; keys are unique in a dict loaded from JSON. -/
def lookupEntries : TransEntries → List Char → Option TransVal
  | TransEntries.nil, _ => none
  | TransEntries.cons k v rest, key =>
    if k = key then some v else lookupEntries rest key

/-- The key walk of `I18nManager.tr` (src/core/i18n.py lines 155-161):
`for k in keys: value = value[k]`.  Indexing a dict with a missing key
raises `KeyError`; indexing a string with a string raises `TypeError`;
both are caught by the caller, modelled as `none`. -/
def walk : TransVal → List (List Char) → Option TransVal
  | v, [] => some v
  | TransVal.dict es, k :: ks =>
    match lookupEntries es k with
    | some v => walk v ks
    | none => none
  | TransVal.str _, _ :: _ => none

/-- Python `str.split(sep)` for a one-character separator: never returns
an empty list; the empty string splits to `[""]`. -/
def splitOnChar (sep : Char) : List Char → List (List Char)
  | [] => [[]]
  | c :: rest =>
    if c = sep then [] :: splitOnChar sep rest
    else
      match splitOnChar sep rest with
      | [] => [[c]]
      | r :: rs => (c :: r) :: rs

/-- Keyword-argument lookup for `str.format(**kwargs)`. -/
def lookupKw : List (List Char × List Char) → List Char → Option (List Char)
  | [], _ => none
  | (k, v) :: rest, key => if k = key then some v else lookupKw rest key

/-- Python `str.format(**kwargs)` restricted to simple named fields,
which is what the locale strings use.  The first argument is `none` in
literal text and `some acc` inside a replacement field (`acc` holds the
field name read so far, reversed).  `\x7b\x7b` and `\x7d\x7d` are brace
escapes; a field whose name is empty (positional) or not among the
keyword arguments raises (`IndexError` / `KeyError`), an unmatched brace
raises `ValueError` — all modelled as `none`. -/
def formatScan (kwargs : List (List Char × List Char)) :
    Option (List Char) → List Char → Option (List Char)
  | none, [] => some []
  | some _, [] => none
  | none, [c] =>
    if c = lbrace then none
    else if c = rbrace then none
    else Option.map (fun r => c :: r) (formatScan kwargs none [])
  | none, c :: d :: rest2 =>
    if c = lbrace then
      if d = lbrace then Option.map (fun r => lbrace :: r) (formatScan kwargs none rest2)
      else formatScan kwargs (some []) (d :: rest2)
    else if c = rbrace then
      if d = rbrace then Option.map (fun r => rbrace :: r) (formatScan kwargs none rest2)
      else none
    else Option.map (fun r => c :: r) (formatScan kwargs none (d :: rest2))
  | some acc, c :: rest =>
    if c = rbrace then
      if acc = [] then none
      else
        match lookupKw kwargs acc.reverse with
        | some v => Option.map (fun r => v ++ r) (formatScan kwargs none rest)
        | none => none
    else formatScan kwargs (some (c :: acc)) rest

/-- `value.format(**kwargs)` (src/core/i18n.py line 165): `none` models a
raised exception. -/
def formatStr (s : List Char) (kwargs : List (List Char × List Char)) :
    Option (List Char) :=
  formatScan kwargs none s

/-- `I18nManager.tr` (src/core/i18n.py lines 137-179): split the key on
dots, walk the translations dict; on a lookup failure return the key; on
success return `str(value)`, except that a string value with keyword
arguments supplied is formatted — and if formatting raises, the
`except (KeyError, TypeError)` / `except Exception` handlers return the
key. -/
def tr (translations : TransEntries) (key : List Char)
    (kwargs : List (List Char × List Char)) : List Char :=
  match walk (TransVal.dict translations) (splitOnChar '.' key) with
  | none => key
  | some (TransVal.str s) =>
    if kwargs ≠ [] then
      match formatStr s kwargs with
      | some r => r
      | none => key
    else s
  | some (TransVal.dict es) => pyStr (TransVal.dict es)

/-- What loading one locale file can yield: the file is missing, it
exists but opening/parsing raises, or it parses to a JSON object. -/
inductive LocaleFile where
  | missing
  | bad
  | good (v : TransEntries)
deriving DecidableEq

/-- The state of `I18nManager` relevant to `set_locale`
(src/core/i18n.py lines 44-52): the loaded translations, current and
fallback locale codes, and the persisted `'language'` value in the
platform settings store (`QSettings('ChangoSoft', 'ChangoEditor')`). -/
structure I18nState where
  translations : TransEntries
  current_locale : PathStr
  fallback_locale : PathStr
  settings_language : Option PathStr
deriving DecidableEq

/-- `I18nManager.set_locale` (src/core/i18n.py lines 96-135).  When the
locale file exists and parses, install it, update the current locale and
persist `'language'` (returning `true` for "the setting was written").
When it exists but loading raises, the handler resets the translations
to `{}` before the setting is written.  When it is missing, load the
fallback locale if possible (never touching the setting). -/
def set_locale (files : PathStr → LocaleFile) (st : I18nState) (locale : PathStr) :
    I18nState × Bool :=
  match files locale with
  | LocaleFile.good v =>
    ({ st with translations := v, current_locale := locale,
               settings_language := some locale }, true)
  | LocaleFile.bad => ({ st with translations := TransEntries.nil }, false)
  | LocaleFile.missing =>
    match files st.fallback_locale with
    | LocaleFile.good v =>
      ({ st with translations := v, current_locale := st.fallback_locale }, false)
    | LocaleFile.bad => ({ st with translations := TransEntries.nil }, false)
    | LocaleFile.missing => ({ st with translations := TransEntries.nil }, false)

/-- `ThemeManager` state (src/utils/themes.py lines 59-60): the loaded
themes by name, in load order, and the current theme name. -/
structure ThemeManager where
  themes : List (PathStr × TransVal)
  current_theme : List Char
deriving DecidableEq

/-- `self.themes.get(theme_name)` — lookup of a loaded theme by name. -/
def lookupTheme : List (PathStr × TransVal) → List Char → Option TransVal
  | [], _ => none
  | (k, v) :: rest, key => if k = key then some v else lookupTheme rest key

/-- `ThemeManager.get_theme` (src/utils/themes.py lines 165-167). -/
def get_theme (mgr : ThemeManager) (theme_name : List Char) : Option TransVal :=
  lookupTheme mgr.themes theme_name

/-- `ThemeManager.set_theme` (src/utils/themes.py lines 173-181): update
`current_theme` and return `True` exactly when the name is a key of the
loaded themes dict; otherwise return `False` unchanged. -/
def set_theme (mgr : ThemeManager) (theme_name : List Char) : ThemeManager × Bool :=
  if (lookupTheme mgr.themes theme_name).isSome then
    ({ mgr with current_theme := theme_name }, true)
  else
    (mgr, false)

/-- Python truthiness of a JSON value (`if not theme`): empty strings and
empty dicts are falsy. -/
def pyFalsy : TransVal → Bool
  | TransVal.str s => decide (s = [])
  | TransVal.dict TransEntries.nil => true
  | TransVal.dict (TransEntries.cons _ _ _) => false

/-- `value.get(key, default)` on a JSON value: on a dict, the entry or
the default; on a string, Python raises `AttributeError` (`none`). -/
def dictGet (v : TransVal) (key : List Char) (dflt : TransVal) : Option TransVal :=
  match v with
  | TransVal.str _ => none
  | TransVal.dict es => some ((lookupEntries es key).getD dflt)

/-- One piece of the stylesheet f-string of
`ThemeManager.get_theme_stylesheet` (src/utils/themes.py lines 192-353):
either literal text or a `{colors.get('key', 'default')}` placeholder. -/
inductive Seg where
  | lit (s : String)
  | color (key : String) (dflt : String)
deriving DecidableEq

/-- Interpolation of the f-string: literal pieces verbatim, each color
placeholder filled with `str(colors.get(key, default))`; `none` models an
exception from `colors.get` on a non-dict `colors`. -/
def renderSegs (colors : TransVal) : List Seg → Option (List Char)
  | [] => some []
  | Seg.lit s :: rest => Option.map (fun r => s.toList ++ r) (renderSegs colors rest)
  | Seg.color k d :: rest =>
    match dictGet colors k.toList (TransVal.str d.toList) with
    | none => none
    | some v => Option.map (fun r => pyStr v ++ r) (renderSegs colors rest)

/-- The stylesheet f-string of `ThemeManager.get_theme_stylesheet`
(src/utils/themes.py lines 192-353), split at its
`\x7bcolors.get('key', 'default')\x7d` placeholders; doubled braces of the
f-string are rendered as single braces, exactly as Python renders them. -/
def stylesheetTemplate : List Seg := [
  Seg.lit "\n        /* 主窗口样式 */\n        QMainWindow \x7b\n            background-color: ",
  Seg.color "background" "#2b2b2b",
  Seg.lit ";\n            color: ",
  Seg.color "foreground" "#ffffff",
  Seg.lit ";\n        \x7d\n        \n        /* 菜单栏样式 */\n        QMenuBar \x7b\n            background-color: ",
  Seg.color "menu_background" "#3c3c3c",
  Seg.lit ";\n            color: ",
  Seg.color "menu_foreground" "#ffffff",
  Seg.lit ";\n            border: none;\n            padding: 2px;\n        \x7d\n        QMenuBar::item \x7b\n            background-color: transparent;\n            padding: 4px 8px;\n            border-radius: 4px;\n        \x7d\n        QMenuBar::item:selected \x7b\n            background-color: ",
  Seg.color "selection" "#4a4a4a",
  Seg.lit ";\n        \x7d\n        QMenuBar::item:pressed \x7b\n            background-color: ",
  Seg.color "selection" "#4a4a4a",
  Seg.lit ";\n        \x7d\n        \n        /* 菜单样式 */\n        QMenu \x7b\n            background-color: ",
  Seg.color "menu_background" "#3c3c3c",
  Seg.lit ";\n            color: ",
  Seg.color "menu_foreground" "#ffffff",
  Seg.lit ";\n            border: 1px solid #555555;\n            border-radius: 4px;\n            padding: 4px;\n        \x7d\n        QMenu::item \x7b\n            padding: 6px 24px;\n            border-radius: 4px;\n        \x7d\n        QMenu::item:selected \x7b\n            background-color: ",
  Seg.color "selection" "#4a4a4a",
  Seg.lit ";\n        \x7d\n        QMenu::separator \x7b\n            height: 1px;\n            background-color: #555555;\n            margin: 4px 0px;\n        \x7d\n        \n        /* 工具栏样式 */\n        QToolBar \x7b\n            background-color: ",
  Seg.color "toolbar_background" "#3c3c3c",
  Seg.lit ";\n            color: ",
  Seg.color "toolbar_foreground" "#ffffff",
  Seg.lit ";\n            border: none;\n            spacing: 2px;\n            padding: 4px;\n        \x7d\n        QToolBar::separator \x7b\n            background-color: #555555;\n            width: 1px;\n            margin: 0 4px;\n        \x7d\n        QToolButton \x7b\n            background-color: transparent;\n            color: ",
  Seg.color "toolbar_foreground" "#ffffff",
  Seg.lit ";\n            border: none;\n            padding: 4px;\n            border-radius: 4px;\n            font-weight: bold;\n        \x7d\n        QToolButton:hover \x7b\n            background-color: ",
  Seg.color "selection" "#4a4a4a",
  Seg.lit ";\n            color: ",
  Seg.color "toolbar_foreground" "#ffffff",
  Seg.lit ";\n        \x7d\n        QToolButton:pressed \x7b\n            background-color: ",
  Seg.color "selection" "#4a4a4a",
  Seg.lit ";\n            color: ",
  Seg.color "toolbar_foreground" "#ffffff",
  Seg.lit ";\n        \x7d\n        \n        /* 状态栏样式 */\n        QStatusBar \x7b\n            background-color: ",
  Seg.color "statusbar_background" "#3c3c3c",
  Seg.lit ";\n            color: ",
  Seg.color "statusbar_foreground" "#ffffff",
  Seg.lit ";\n            border-top: 1px solid #555555;\n            padding: 2px;\n        \x7d\n        \n        /* 分割器样式 */\n        QSplitter::handle \x7b\n            background-color: #555555;\n        \x7d\n        QSplitter::handle:hover \x7b\n            background-color: #666666;\n        \x7d\n        \n        /* 标签页样式 */\n        QTabWidget::pane \x7b\n            border: 1px solid #555555;\n            background-color: ",
  Seg.color "background" "#2b2b2b",
  Seg.lit ";\n        \x7d\n        QTabWidget::tab-bar \x7b\n            alignment: left;\n        \x7d\n        QTabBar::tab \x7b\n            background-color: ",
  Seg.color "menu_background" "#3c3c3c",
  Seg.lit ";\n            color: ",
  Seg.color "menu_foreground" "#ffffff",
  Seg.lit ";\n            border: 1px solid #555555;\n            padding: 8px 16px;\n            margin-right: 2px;\n            border-top-left-radius: 4px;\n            border-top-right-radius: 4px;\n            min-width: 80px;\n            max-width: 200px;\n        \x7d\n        QTabBar::tab:selected \x7b\n            background-color: ",
  Seg.color "background" "#2b2b2b",
  Seg.lit ";\n            border-bottom: 1px solid ",
  Seg.color "background" "#2b2b2b",
  Seg.lit ";\n        \x7d\n        QTabBar::tab:hover \x7b\n            background-color: ",
  Seg.color "selection" "#404040",
  Seg.lit ";\n        \x7d\n        QTabBar::tab:!selected \x7b\n            margin-top: 2px;\n        \x7d\n        \n        /* 文件浏览器样式 */\n        QListWidget \x7b\n            background-color: ",
  Seg.color "background" "#2b2b2b",
  Seg.lit ";\n            color: ",
  Seg.color "foreground" "#ffffff",
  Seg.lit ";\n            border: none;\n            outline: none;\n        \x7d\n        QListWidget::item \x7b\n            height: 22px;\n            padding: 2px;\n        \x7d\n        QListWidget::item:hover \x7b\n            background-color: ",
  Seg.color "selection" "#404040",
  Seg.lit ";\n        \x7d\n        QListWidget::item:selected \x7b\n            background-color: ",
  Seg.color "selection" "#0078d4",
  Seg.lit ";\n        \x7d\n        \n        /* 按钮样式 */\n        QPushButton \x7b\n            background-color: ",
  Seg.color "menu_background" "#3c3c3c",
  Seg.lit ";\n            color: ",
  Seg.color "menu_foreground" "#ffffff",
  Seg.lit ";\n            border: 1px solid #555555;\n            padding: 6px 12px;\n            border-radius: 4px;\n        \x7d\n        QPushButton:hover \x7b\n            background-color: ",
  Seg.color "selection" "#4a4a4a",
  Seg.lit ";\n        \x7d\n        QPushButton:pressed \x7b\n            background-color: ",
  Seg.color "selection" "#4a4a4a",
  Seg.lit ";\n        \x7d\n        \n        /* 标签样式 */\n        QLabel \x7b\n            background-color: transparent;\n            color: ",
  Seg.color "foreground" "#ffffff",
  Seg.lit ";\n        \x7d\n        "
]

/-- The name resolution `theme_name or self.current_theme`
(src/utils/themes.py line 185): a `None` or empty name falls back to the
current theme name. -/
def resolveThemeName (mgr : ThemeManager) (theme_name : Option (List Char)) : List Char :=
  match theme_name with
  | some n => if n = [] then mgr.current_theme else n
  | none => mgr.current_theme

/-- `ThemeManager.get_theme_stylesheet` (src/utils/themes.py lines
183-355): look the resolved name up among the loaded themes; `if not
theme: return ""` covers both a failed lookup and a falsy (empty) theme;
otherwise interpolate `theme.get("colors", {})` into the stylesheet
template.  `none` models an uncaught exception (`.get` on a non-dict). -/
def get_theme_stylesheet (mgr : ThemeManager) (theme_name : Option (List Char)) :
    Option (List Char) :=
  match get_theme mgr (resolveThemeName mgr theme_name) with
  | none => some []
  | some t =>
    if pyFalsy t then some []
    else
      match dictGet t "colors".toList (TransVal.dict TransEntries.nil) with
      | none => none
      | some colors => renderSegs colors stylesheetTemplate

/-- A translations dict whose single value is the string `"\x7bx\x7d"` —
a format string whose only field name, `x`, will not be supplied. -/
def cexTranslations : TransEntries :=
  TransEntries.cons "greet".toList (TransVal.str [lbrace, 'x', rbrace]) TransEntries.nil

/-- Keyword arguments `y="1"` for `tr`, not containing the field `x`. -/
def cexKwargs : List (List Char × List Char) := [("y".toList, "1".toList)]

/-- A theme manager that loaded one theme, `empty`, from a JSON document
that is the empty object. -/
def emptyThemeMgr : ThemeManager :=
  { themes := [("empty".toList, TransVal.dict TransEntries.nil)],
    current_theme := "dark".toList }

/-- A locale directory with a single well-formed locale file, `en`. -/
def sampleLocaleFiles : PathStr → LocaleFile :=
  fun p => if p = "en".toList then LocaleFile.good TransEntries.nil else LocaleFile.missing

/-- An i18n manager state before any `set_locale` call. -/
def sampleI18n : I18nState :=
  { translations := TransEntries.nil, current_locale := "zh".toList,
    fallback_locale := "zh".toList, settings_language := none }

/-- A one-file file system whose file decodes only as GBK, for concrete
witnesses. -/
def sampleFs : FileSys :=
  fun p => if p = ['a'] then some { utf8 := none, gbk := some ['h', 'i'] } else none

/-- A fresh editor state, as after `TextEditor.__init__`
(src/core/editor.py lines 52-53). -/
def sampleEditor : EditorState :=
  { text := [], file_path := none, file_encoding := Encoding.utf8, modified := false }

theorem matchesAt_le_length {cs : Bool} {needle text : List Char}
    (h : matchesAt cs needle text = true) : needle.length ≤ text.length := by
  unfold matchesAt at h
  have he : keyChars cs needle = keyChars cs (text.take needle.length) := by
    exact eq_of_beq h
  have hl : (keyChars cs needle).length = (keyChars cs (text.take needle.length)).length := by
    rw [he]
  unfold keyChars at hl
  cases cs <;> simp [List.length_take] at hl <;> omega

theorem occsFrom_shift (cs : Bool) (needle : List Char) :
    ∀ n t, List.length t ≤ n → ∀ pos : Nat,
      occsFrom cs needle t pos = (occsFrom cs needle t 0).map (· + pos) := by
  intro n
  induction n with
  | zero =>
    intro t ht pos
    have : t = [] := List.eq_nil_of_length_eq_zero (Nat.le_zero.mp ht)
    subst this
    simp [occsFrom]
  | succ m ih =>
    intro t ht pos
    match t with
    | [] => simp [occsFrom]
    | c :: rest =>
      by_cases hm : matchesAt cs needle (c :: rest) = true
      · rw [occsFrom, occsFrom, if_pos hm, if_pos hm]
        have hlen : (rest.drop (needle.length - 1)).length ≤ m := by
          simp only [List.length_cons] at ht
          simp only [List.length_drop]
          omega
        rw [ih _ hlen (pos + needle.length), ih _ hlen (0 + needle.length)]
        simp only [List.map_cons, List.map_map, Nat.zero_add]
        congr 1
        apply List.map_congr_left
        intro a _
        simp only [Function.comp_apply]
        omega
      · rw [occsFrom, occsFrom, if_neg hm, if_neg hm]
        have hlen : rest.length ≤ m := by
          simp only [List.length_cons] at ht; omega
        rw [ih _ hlen (pos + 1), ih _ hlen (0 + 1)]
        simp only [List.map_map]
        apply List.map_congr_left
        intro a _
        simp only [Function.comp_apply]
        omega

theorem spliceOne_shift (repl : List Char) (flen : Nat) (pre t : List Char)
    (k s : Nat) (hk : pre.length = k) :
    spliceOne repl flen (pre ++ t) (k + s) = pre ++ spliceOne repl flen t s := by
  unfold spliceOne
  rw [List.take_append_eq_append_take, List.drop_append_eq_append_drop]
  rw [List.take_of_length_le (by omega), List.drop_eq_nil_of_le (by omega)]
  rw [hk]
  have h1 : k + s - k = s := by omega
  have h2 : k + s + flen - k = s + flen := by omega
  rw [h1, h2]
  simp [List.append_assoc]

theorem foldl_splice_shift (repl : List Char) (flen : Nat) (pre : List Char)
    (k : Nat) (hk : pre.length = k) :
    ∀ (l : List Nat) (t : List Char),
      (l.map (· + k)).foldl (fun acc s => spliceOne repl flen acc s) (pre ++ t)
        = pre ++ l.foldl (fun acc s => spliceOne repl flen acc s) t := by
  intro l
  induction l with
  | nil => intro t; simp
  | cons s rest ih =>
    intro t
    simp only [List.map_cons, List.foldl_cons]
    have hcomm : s + k = k + s := by omega
    rw [hcomm, spliceOne_shift repl flen pre t k s hk]
    exact ih (spliceOne repl flen t s)

theorem spliceAll_map_shift (repl : List Char) (flen : Nat) (pre t : List Char)
    (k : Nat) (hk : pre.length = k) (ms : List Nat) :
    spliceAll repl flen (ms.map (· + k)) (pre ++ t)
      = pre ++ spliceAll repl flen ms t := by
  unfold spliceAll
  rw [← List.map_reverse]
  exact foldl_splice_shift repl flen pre k hk ms.reverse t

theorem spliceAll_eq_ltrPass (cs : Bool) (needle repl : List Char)
    (hne : needle ≠ []) :
    ∀ n t, List.length t ≤ n →
      spliceAll repl needle.length (occsFrom cs needle t 0) t = ltrPass cs needle repl t := by
  intro n
  induction n with
  | zero =>
    intro t ht
    have : t = [] := List.eq_nil_of_length_eq_zero (Nat.le_zero.mp ht)
    subst this
    simp [occsFrom, spliceAll, ltrPass]
  | succ m ih =>
    intro t ht
    match t with
    | [] => simp [occsFrom, spliceAll, ltrPass]
    | c :: rest =>
      have hkpos : 1 ≤ needle.length := by
        cases needle with
        | nil => exact absurd rfl hne
        | cons a l => simp
      by_cases hm : matchesAt cs needle (c :: rest) = true
      · rw [occsFrom, if_pos hm, ltrPass, if_pos hm]
        have hlen' : (rest.drop (needle.length - 1)).length ≤ m := by
          simp only [List.length_drop]
          simp only [List.length_cons] at ht
          omega
        rw [occsFrom_shift cs needle m (rest.drop (needle.length - 1)) hlen' (0 + needle.length)]
        have hk1 : (needle.length - 1) + 1 = needle.length := by omega
        have hdropt : rest.drop (needle.length - 1) = (c :: rest).drop needle.length := by
          rw [← List.drop_succ_cons (n := needle.length - 1), hk1]
        have hsplit : (c :: rest).take needle.length ++ rest.drop (needle.length - 1)
            = c :: rest := by
          rw [hdropt, List.take_append_drop]
        have hklen : ((c :: rest).take needle.length).length = needle.length := by
          rw [List.length_take]
          have := matchesAt_le_length hm
          omega
        unfold spliceAll
        simp only [List.reverse_cons]
        rw [List.foldl_append]
        simp only [List.foldl_cons, List.foldl_nil]
        rw [← List.map_reverse]
        have hzero : (0 : Nat) + needle.length = needle.length := by omega
        rw [hzero]
        conv_lhs => rw [← hsplit]
        rw [foldl_splice_shift repl needle.length _ needle.length hklen
              (occsFrom cs needle (rest.drop (needle.length - 1)) 0).reverse
              (rest.drop (needle.length - 1))]
        have hfold : (occsFrom cs needle (rest.drop (needle.length - 1)) 0).reverse.foldl
            (fun acc s => spliceOne repl needle.length acc s) (rest.drop (needle.length - 1))
            = spliceAll repl needle.length
                (occsFrom cs needle (rest.drop (needle.length - 1)) 0)
                (rest.drop (needle.length - 1)) := by
          rfl
        rw [hfold, ih _ hlen']
        unfold spliceOne
        rw [List.take_zero, Nat.zero_add]
        have hdrop : (((c :: rest).take needle.length)
              ++ ltrPass cs needle repl (rest.drop (needle.length - 1))).drop needle.length
            = ltrPass cs needle repl (rest.drop (needle.length - 1)) := by
          have := List.drop_left ((c :: rest).take needle.length)
            (ltrPass cs needle repl (rest.drop (needle.length - 1)))
          rwa [hklen] at this
        rw [hdrop, List.nil_append]
      · rw [occsFrom, if_neg hm, ltrPass, if_neg hm]
        have hlen : rest.length ≤ m := by
          simp only [List.length_cons] at ht; omega
        rw [occsFrom_shift cs needle m rest hlen (0 + 1)]
        have hpre : ([c] : List Char).length = 0 + 1 := by simp
        have := spliceAll_map_shift repl needle.length [c] rest (0 + 1) hpre
          (occsFrom cs needle rest 0)
        simp only [List.singleton_append] at this
        rw [this, ih rest hlen]

/-- C1: with `regex=False`, `whole_words=False`, `case_sensitive=False`
and a non-empty search string, `replace_all` returns exactly the string
produced by a single left-to-right pass replacing the non-overlapping
case-insensitive occurrences, and the count of those occurrences. -/
theorem replace_all_ci_eq_single_pass (doc_text find_text replace_text : List Char)
    (hne : find_text ≠ []) :
    replace_all find_text replace_text false doc_text
      = (ltrPass false find_text replace_text doc_text,
         (occsFrom false find_text doc_text 0).length) := by
  unfold replace_all
  rw [if_neg hne]
  simp only [Bool.false_eq_true, if_false]
  have := spliceAll_eq_ltrPass false find_text replace_text hne doc_text.length doc_text
    (Nat.le_refl _)
  rw [this]

/-- Witness for C1 at a concrete input: replacing "ab" (case-insensitively)
by "z" in "xAbab" yields "xzz" with count 2. -/
theorem replace_all_ci_eq_single_pass_witness :
    ("ab".toList ≠ [] ∧
      replace_all "ab".toList "z".toList false "xAbab".toList
        = (ltrPass false "ab".toList "z".toList "xAbab".toList,
           (occsFrom false "ab".toList "xAbab".toList 0).length)) :=
  ⟨by decide, replace_all_ci_eq_single_pass "xAbab".toList "ab".toList "z".toList (by decide)⟩

theorem findScan_mem_iff (cs : Bool) (s : List Char) :
    ∀ (t : List Char) (pos p e : Nat),
      (p, e) ∈ findScan cs s t pos ↔
        (pos ≤ p ∧ p < pos + t.length ∧ e = p + s.length ∧
          matchesAt cs s (t.drop (p - pos)) = true) := by
  intro t
  induction t with
  | nil =>
    intro pos p e
    constructor
    · intro h
      simp [findScan] at h
    · rintro ⟨h1, h2, -, -⟩
      simp only [List.length_nil] at h2
      omega
  | cons c rest ih =>
    intro pos p e
    by_cases hm : matchesAt cs s (c :: rest) = true
    · rw [findScan, if_pos hm]
      constructor
      · intro h
        rcases List.mem_cons.mp h with heq | hrec
        · have hp : p = pos := by
            have := congrArg Prod.fst heq
            simpa using this
          have he : e = pos + s.length := by
            have := congrArg Prod.snd heq
            simpa using this
          subst hp
          refine ⟨Nat.le_refl _, by simp, by omega, ?_⟩
          simpa using hm
        · rcases (ih (pos + 1) p e).mp hrec with ⟨h1, h2, h3, h4⟩
          refine ⟨by omega, by simp only [List.length_cons]; omega, h3, ?_⟩
          have hsub : p - pos = (p - (pos + 1)) + 1 := by omega
          rw [hsub, List.drop_succ_cons]
          exact h4
      · rintro ⟨h1, h2, h3, h4⟩
        rcases Nat.eq_or_lt_of_le h1 with heq | hlt
        · apply List.mem_cons.mpr
          left
          rw [h3, ← heq]
        · apply List.mem_cons.mpr
          right
          apply (ih (pos + 1) p e).mpr
          refine ⟨by omega, by simp only [List.length_cons] at h2; omega, h3, ?_⟩
          have hsub : p - pos = (p - (pos + 1)) + 1 := by omega
          rw [hsub, List.drop_succ_cons] at h4
          exact h4
    · rw [findScan, if_neg hm]
      rw [ih (pos + 1) p e]
      constructor
      · rintro ⟨h1, h2, h3, h4⟩
        refine ⟨by omega, by simp only [List.length_cons]; omega, h3, ?_⟩
        have hsub : p - pos = (p - (pos + 1)) + 1 := by omega
        rw [hsub, List.drop_succ_cons]
        exact h4
      · rintro ⟨h1, h2, h3, h4⟩
        have hne : p ≠ pos := by
          intro heq
          subst heq
          simp only [Nat.sub_self, List.drop_zero] at h4
          exact hm h4
        refine ⟨by omega, by simp only [List.length_cons] at h2; omega, h3, ?_⟩
        have hsub : p - pos = (p - (pos + 1)) + 1 := by omega
        rw [hsub, List.drop_succ_cons] at h4
        exact h4

theorem findScan_pos_le (cs : Bool) (s : List Char) :
    ∀ (t : List Char) (pos : Nat) (pr : Nat × Nat),
      pr ∈ findScan cs s t pos → pos ≤ pr.1 := by
  intro t
  induction t with
  | nil =>
    intro pos pr h
    simp [findScan] at h
  | cons c rest ih =>
    intro pos pr h
    by_cases hm : matchesAt cs s (c :: rest) = true
    · rw [findScan, if_pos hm] at h
      rcases List.mem_cons.mp h with heq | hrec
      · subst heq; exact Nat.le_refl _
      · have := ih (pos + 1) pr hrec
        omega
    · rw [findScan, if_neg hm] at h
      have := ih (pos + 1) pr h
      omega

theorem findScan_increasing (cs : Bool) (s : List Char) :
    ∀ (t : List Char) (pos : Nat),
      (findScan cs s t pos).Pairwise (fun a b => a.1 < b.1) := by
  intro t
  induction t with
  | nil => intro pos; simp [findScan]
  | cons c rest ih =>
    intro pos
    by_cases hm : matchesAt cs s (c :: rest) = true
    · rw [findScan, if_pos hm]
      refine List.Pairwise.cons ?_ (ih (pos + 1))
      intro pr hpr
      have := findScan_pos_le cs s rest (pos + 1) pr hpr
      simp only
      omega
    · rw [findScan, if_neg hm]
      exact ih (pos + 1)

/-- C10: with the regex and whole-word options off, `_find_all_matches`
reports the interval `(p, p + |text|)` for every (possibly case-folded)
occurrence position `p`, including overlapping ones, with strictly
increasing start positions; on "AaA" with search "aa" its count (2)
exceeds the non-overlapping count reported by `replace_all` (1). -/
theorem find_all_matches_overlapping_occurrences :
    (∀ (text doc_text : List Char) (cs : Bool) (p e : Nat), text ≠ [] →
        ((p, e) ∈ find_all_matches text doc_text cs ↔
          (e = p + text.length ∧ matchesAt cs text (doc_text.drop p) = true))) ∧
    (∀ (text doc_text : List Char) (cs : Bool),
        (find_all_matches text doc_text cs).Pairwise (fun a b => a.1 < b.1)) ∧
    ((find_all_matches "aa".toList "AaA".toList false).length = 2 ∧
      (replace_all "aa".toList "x".toList false "AaA".toList).2 = 1) := by
  refine ⟨?_, ?_, by decide, by simp [replace_all, occsFrom, matchesAt, keyChars]⟩
  · intro text doc_text cs p e hne
    unfold find_all_matches
    rw [if_neg hne]
    rw [findScan_mem_iff cs text doc_text 0 p e]
    constructor
    · rintro ⟨-, -, h3, h4⟩
      simp only [Nat.sub_zero] at h4
      exact ⟨h3, h4⟩
    · rintro ⟨h3, h4⟩
      have hlen := matchesAt_le_length h4
      have htpos : 1 ≤ text.length := by
        cases text with
        | nil => exact absurd rfl hne
        | cons a l => simp
      simp only [List.length_drop] at hlen
      refine ⟨Nat.zero_le _, by omega, h3, by simpa using h4⟩
  · intro text doc_text cs
    unfold find_all_matches
    by_cases hne : text = []
    · rw [if_pos hne]; simp
    · rw [if_neg hne]
      exact findScan_increasing cs text doc_text 0

/-- Witness for C10 at concrete inputs. -/
theorem find_all_matches_overlapping_occurrences_witness :
    ("a".toList ≠ [] ∧
      (((0, 1) ∈ find_all_matches "a".toList "ab".toList true) ↔
        (1 = 0 + "a".toList.length ∧
          matchesAt true "a".toList ("ab".toList.drop 0) = true))) :=
  ⟨by decide,
    find_all_matches_overlapping_occurrences.1 "a".toList "ab".toList true 0 1 (by decide)⟩

/-- C3: `load_file` tries UTF-8 first and GBK only after a UTF-8 decode
error; on success it installs the decoded content, the path and the
surviving encoding and returns `True`; if the read fails outright, or
both decodings fail, it returns `False` with the editor state unchanged. -/
theorem load_file_utf8_then_gbk (fs : FileSys) (st : EditorState) (path : PathStr) :
    (fs path = none → load_file fs st path = (st, false)) ∧
    (∀ f c, fs path = some f → f.utf8 = some c →
      load_file fs st path
        = ({ text := c, file_path := some path,
             file_encoding := Encoding.utf8, modified := false }, true)) ∧
    (∀ f c, fs path = some f → f.utf8 = none → f.gbk = some c →
      load_file fs st path
        = ({ text := c, file_path := some path,
             file_encoding := Encoding.gbk, modified := false }, true)) ∧
    (∀ f, fs path = some f → f.utf8 = none → f.gbk = none →
      load_file fs st path = (st, false)) := by
  refine ⟨?_, ?_, ?_, ?_⟩
  · intro h
    simp [load_file, h]
  · intro f c hf hu
    simp [load_file, hf, hu]
  · intro f c hf hu hg
    simp [load_file, hf, hu, hg]
  · intro f hf hu hg
    simp [load_file, hf, hu, hg]

/-- Witness for C3: a file readable only as GBK loads with the GBK
encoding recorded. -/
theorem load_file_utf8_then_gbk_witness :
    (sampleFs ['a'] = some { utf8 := none, gbk := some ['h', 'i'] } ∧
      load_file sampleFs sampleEditor ['a']
        = ({ text := ['h', 'i'], file_path := some ['a'],
             file_encoding := Encoding.gbk, modified := false }, true)) :=
  ⟨by decide,
    (load_file_utf8_then_gbk sampleFs sampleEditor ['a']).2.2.1
      { utf8 := none, gbk := some ['h', 'i'] } ['h', 'i']
      (by decide) (by decide) (by decide)⟩

/-- C6: `save` with no truthy backing path delegates to `save_as`, which
opens the Save-As file dialog; with a truthy backing path it writes
directly to that path and opens no dialog. -/
theorem save_without_path_delegates_to_save_as
    (st : EditorState) (dialogResult : PathStr) (writeOk : Bool) :
    (truthyPath st.file_path = false →
      (save st dialogResult writeOk = save_as st none dialogResult writeOk ∧
        (save st dialogResult writeOk).openedSaveDialog = true)) ∧
    (∀ p, st.file_path = some p → p ≠ [] →
      ((save st dialogResult writeOk).openedSaveDialog = false ∧
        (save st dialogResult writeOk).write
          = some { path := p, content := st.text, encoding := st.file_encoding })) := by
  constructor
  · intro h
    have hs : save st dialogResult writeOk = save_as st none dialogResult writeOk := by
      simp [save, h]
    refine ⟨hs, ?_⟩
    rw [hs]
    by_cases hd : dialogResult = [] <;> cases writeOk <;>
      simp [save_as, save_to_file, truthyPath, hd]
  · intro p hp hpne
    have ht : truthyPath st.file_path = true := by
      simp [truthyPath, hp, hpne]
    cases writeOk <;>
      simp [save, hp, truthyPath, hpne, save_to_file]

/-- Witness for C6: an editor with a backing path saves without a dialog,
writing there; one without a path delegates to the dialog. -/
theorem save_without_path_delegates_to_save_as_witness :
    (truthyPath sampleEditor.file_path = false ∧
      (save sampleEditor ['b'] true = save_as sampleEditor none ['b'] true ∧
        (save sampleEditor ['b'] true).openedSaveDialog = true)) :=
  ⟨by decide,
    (save_without_path_delegates_to_save_as sampleEditor ['b'] true).1 (by decide)⟩

/-- C8: after a successful load, `file_encoding` is exactly the encoding
that succeeded (UTF-8, or GBK after the fallback), every write a `save`
issues uses the editor's current `file_encoding`, and saving never
changes `file_encoding` — so a file read via the GBK fallback is written
back in GBK. -/
theorem save_preserves_load_encoding (fs : FileSys) (st : EditorState) (path : PathStr) :
    (∀ f c, fs path = some f → f.utf8 = some c →
      (load_file fs st path).1.file_encoding = Encoding.utf8) ∧
    (∀ f c, fs path = some f → f.utf8 = none → f.gbk = some c →
      (load_file fs st path).1.file_encoding = Encoding.gbk) ∧
    (∀ (st' : EditorState) (dr : PathStr) (wOk : Bool) (w : WriteOp),
      (save st' dr wOk).write = some w → w.encoding = st'.file_encoding) ∧
    (∀ (st' : EditorState) (dr : PathStr) (wOk : Bool),
      (save st' dr wOk).state.file_encoding = st'.file_encoding) := by
  refine ⟨?_, ?_, ?_, ?_⟩
  · intro f c hf hu
    simp [load_file, hf, hu]
  · intro f c hf hu hg
    simp [load_file, hf, hu, hg]
  · intro st' dr wOk w
    rcases hfp : st'.file_path with _ | p
    · cases wOk <;> by_cases hd : dr = [] <;>
        simp [save, save_as, save_to_file, truthyPath, hfp, hd] <;>
          (intro h; rw [← h])
    · by_cases hp : p = []
      · cases wOk <;> by_cases hd : dr = [] <;>
          simp [save, save_as, save_to_file, truthyPath, hfp, hp, hd] <;>
            (intro h; rw [← h])
      · cases wOk <;>
          simp [save, save_as, save_to_file, truthyPath, hfp, hp] <;>
            (intro h; rw [← h])
  · intro st' dr wOk
    rcases hfp : st'.file_path with _ | p
    · cases wOk <;> by_cases hd : dr = [] <;>
        simp [save, save_as, save_to_file, truthyPath, hfp, hd]
    · by_cases hp : p = []
      · cases wOk <;> by_cases hd : dr = [] <;>
          simp [save, save_as, save_to_file, truthyPath, hfp, hp, hd]
      · cases wOk <;>
          simp [save, save_as, save_to_file, truthyPath, hfp, hp]

/-- Witness for C8: the GBK-loaded editor saves back with a GBK write. -/
theorem save_preserves_load_encoding_witness :
    (sampleFs ['a'] = some { utf8 := none, gbk := some ['h', 'i'] } ∧
      (load_file sampleFs sampleEditor ['a']).1.file_encoding = Encoding.gbk) :=
  ⟨by decide,
    (save_preserves_load_encoding sampleFs sampleEditor ['a']).2.1
      { utf8 := none, gbk := some ['h', 'i'] } ['h', 'i']
      (by decide) (by decide) (by decide)⟩

theorem findTabByPath_none_not_mem :
    ∀ (fp : List (Nat × Option PathStr)) (p : PathStr),
      findTabByPath fp p = none → ∀ e ∈ fp, e.2 ≠ some p := by
  intro fp
  induction fp with
  | nil =>
    intro p _ e he
    simp at he
  | cons hd rest ih =>
    intro p hnone e he
    rcases hd with ⟨i, q⟩
    rw [findTabByPath] at hnone
    by_cases hq : q = some p
    · rw [if_pos hq] at hnone
      exact absurd hnone (by simp)
    · rw [if_neg hq] at hnone
      rcases List.mem_cons.mp he with rfl | hmem
      · exact hq
      · exact ih p hnone e hmem

theorem open_file_preserves_unique (fs : FileSys) (st : TabState) (p : PathStr)
    (h : UniqueTabPaths st.file_paths) :
    UniqueTabPaths ((open_file fs st p).1).file_paths := by
  unfold open_file
  rcases hfind : findTabByPath st.file_paths p with _ | i
  · rcases hread : readWithFallback fs p with _ | content
    · simpa using h
    · simp only [new_tab]
      intro i j q hi hj
      set fp : Option PathStr := if p = [] then none else some p with hfp
      have hnew : ∀ k r, (k, some r) ∈ st.file_paths ++ [(st.nextIndex, fp)] →
          ((k, some r) ∈ st.file_paths ∧ r ≠ p) ∨ (k = st.nextIndex ∧ some r = fp) := by
        intro k r hk
        rcases List.mem_append.mp hk with hold | hnewm
        · left
          refine ⟨hold, ?_⟩
          intro hrp
          subst hrp
          exact findTabByPath_none_not_mem st.file_paths r hfind (k, some r) hold rfl
        · right
          have hpair : (k, some r) = (st.nextIndex, fp) := by simpa using hnewm
          have h1 : k = st.nextIndex := congrArg Prod.fst hpair
          have h2 : some r = fp := congrArg Prod.snd hpair
          exact ⟨h1, h2⟩
      rcases hnew i q hi with ⟨hiold, hip⟩ | ⟨hin, hifp⟩ <;>
        rcases hnew j q hj with ⟨hjold, hjp⟩ | ⟨hjn, hjfp⟩
      · exact h i j q hiold hjold
      · exfalso
        rw [hfp] at hjfp
        by_cases hpe : p = []
        · rw [if_pos hpe] at hjfp
          exact Option.noConfusion hjfp
        · rw [if_neg hpe] at hjfp
          have : q = p := by
            have := Option.some.inj hjfp
            exact this
          exact hip this
      · exfalso
        rw [hfp] at hifp
        by_cases hpe : p = []
        · rw [if_pos hpe] at hifp
          exact Option.noConfusion hifp
        · rw [if_neg hpe] at hifp
          exact hjp (Option.some.inj hifp)
      · rw [hin, hjn]
  · simpa using h

theorem runOpens_unique_aux :
    ∀ (calls : List (FileSys × PathStr)) (st : TabState),
      UniqueTabPaths st.file_paths →
      UniqueTabPaths ((calls.foldl (fun s c => (open_file c.1 s c.2).1) st).file_paths) := by
  intro calls
  induction calls with
  | nil => intro st h; exact h
  | cons c rest ih =>
    intro st h
    simp only [List.foldl_cons]
    exact ih _ (open_file_preserves_unique c.1 st c.2 h)

/-- C4: `open_file` with an already-open path only switches to the
existing tab (same state but for the current index, `True`, no new tab);
consequently every state reachable from a fresh tab widget through
`open_file` calls maps each non-empty file path to at most one tab
index. -/
theorem open_file_unique_paths :
    (∀ (fs : FileSys) (st : TabState) (p : PathStr) (i : Nat),
      findTabByPath st.file_paths p = some i →
      open_file fs st p = ({ st with current := i }, true)) ∧
    (∀ (calls : List (FileSys × PathStr)) (p : PathStr) (i j : Nat), p ≠ [] →
      (i, some p) ∈ (runOpens calls).file_paths →
      (j, some p) ∈ (runOpens calls).file_paths → i = j) := by
  constructor
  · intro fs st p i hfind
    unfold open_file
    rw [hfind]
  · intro calls p i j _ hi hj
    have hinit : UniqueTabPaths initTabState.file_paths := by
      intro a b q ha _
      simp [initTabState] at ha
    exact runOpens_unique_aux calls initTabState hinit i j p hi hj

/-- Witness for C4: opening the same file twice finds the existing tab 0
and only switches to it. -/
theorem open_file_unique_paths_witness :
    (findTabByPath (runOpens [(sampleFs, ['a'])]).file_paths ['a'] = some 0 ∧
      open_file sampleFs (runOpens [(sampleFs, ['a'])]) ['a']
        = ({ runOpens [(sampleFs, ['a'])] with current := 0 }, true)) :=
  ⟨by decide,
    open_file_unique_paths.1 sampleFs (runOpens [(sampleFs, ['a'])]) ['a'] 0 (by decide)⟩

/-- C2 (amended): `tr` returns the key when any segment of the dotted
walk fails to resolve; when the walk succeeds it returns `str(value)` —
formatted when the value is a string, keyword arguments are supplied and
formatting succeeds, and the key again when formatting raises.  `tr` is
total, so it never raises. -/
theorem tr_dotted_walk_fallback (ts : TransEntries) (key : List Char)
    (kwargs : List (List Char × List Char)) :
    (walk (TransVal.dict ts) (splitOnChar '.' key) = none → tr ts key kwargs = key) ∧
    (∀ es, walk (TransVal.dict ts) (splitOnChar '.' key) = some (TransVal.dict es) →
      tr ts key kwargs = pyStr (TransVal.dict es)) ∧
    (∀ s, walk (TransVal.dict ts) (splitOnChar '.' key) = some (TransVal.str s) →
      ((kwargs = [] → tr ts key kwargs = s) ∧
       (kwargs ≠ [] →
         ((∀ r, formatStr s kwargs = some r → tr ts key kwargs = r) ∧
          (formatStr s kwargs = none → tr ts key kwargs = key))))) := by
  refine ⟨?_, ?_, ?_⟩
  · intro h
    simp [tr, h]
  · intro es h
    simp [tr, h]
  · intro s h
    constructor
    · intro hk
      simp [tr, h, hk]
    · intro hk
      constructor
      · intro r hr
        simp [tr, h, hk, hr]
      · intro hr
        simp [tr, h, hk, hr]

/-- Witness for C2 at a concrete input: a resolved string value with no
keyword arguments is returned as is. -/
theorem tr_dotted_walk_fallback_witness :
    (walk (TransVal.dict cexTranslations) (splitOnChar '.' "greet".toList)
        = some (TransVal.str [lbrace, 'x', rbrace]) ∧
      tr cexTranslations "greet".toList [] = [lbrace, 'x', rbrace]) :=
  ⟨by decide,
    ((tr_dotted_walk_fallback cexTranslations "greet".toList []).2.2
        [lbrace, 'x', rbrace] (by decide)).1 rfl⟩

/-- Counterexample to C2 as stated: every segment of the key resolves to
the string value `"\x7bx\x7d"` and keyword arguments are supplied, yet
`tr` returns the key itself (formatting raises `KeyError`, which the
handler turns into the key fallback), not the found value or any
formatting of it. -/
theorem tr_format_failure_returns_key :
    (walk (TransVal.dict cexTranslations) (splitOnChar '.' "greet".toList)
        = some (TransVal.str [lbrace, 'x', rbrace]) ∧
      cexKwargs ≠ [] ∧
      tr cexTranslations "greet".toList cexKwargs = "greet".toList ∧
      "greet".toList ≠ [lbrace, 'x', rbrace] ∧
      formatStr [lbrace, 'x', rbrace] cexKwargs = none) := by
  refine ⟨by decide, by decide, by decide, by decide, by decide⟩

/-- C7: `set_locale` persists the `'language'` setting exactly when the
locale file exists and loads; a missing file leaves the setting untouched
and loads the fallback locale instead (when that file is present). -/
theorem set_locale_persistence (files : PathStr → LocaleFile) (st : I18nState)
    (locale : PathStr) :
    ((set_locale files st locale).2 = true ↔ ∃ v, files locale = LocaleFile.good v) ∧
    (∀ v, files locale = LocaleFile.good v →
      (set_locale files st locale).1.settings_language = some locale) ∧
    ((set_locale files st locale).2 = false →
      (set_locale files st locale).1.settings_language = st.settings_language) ∧
    (files locale = LocaleFile.missing →
      ((set_locale files st locale).1.settings_language = st.settings_language ∧
        (∀ v, files st.fallback_locale = LocaleFile.good v →
          ((set_locale files st locale).1.translations = v ∧
            (set_locale files st locale).1.current_locale = st.fallback_locale)))) := by
  rcases hl : files locale with _ | _ | v
  · rcases hf : files st.fallback_locale with _ | _ | w <;>
      simp [set_locale, hl, hf]
  · simp [set_locale, hl]
  · simp [set_locale, hl]

/-- Witness for C7: setting an existing locale writes the setting. -/
theorem set_locale_persistence_witness :
    (set_locale sampleLocaleFiles sampleI18n "en".toList).2 = true :=
  (set_locale_persistence sampleLocaleFiles sampleI18n "en".toList).1.mpr
    ⟨TransEntries.nil, by decide⟩

/-- C9: `set_theme` succeeds (returning `True` and installing the name as
`current_theme`) exactly when the name is a loaded theme key; an unknown
name returns `False` with the manager unchanged. -/
theorem set_theme_known_name (mgr : ThemeManager) (theme_name : List Char) :
    ((set_theme mgr theme_name).2 = true ↔
      (lookupTheme mgr.themes theme_name).isSome = true) ∧
    ((lookupTheme mgr.themes theme_name).isSome = true →
      set_theme mgr theme_name = ({ mgr with current_theme := theme_name }, true)) ∧
    ((lookupTheme mgr.themes theme_name).isSome = false →
      set_theme mgr theme_name = (mgr, false)) := by
  cases h : (lookupTheme mgr.themes theme_name).isSome <;>
    simp [set_theme, h]

/-- Witness for C9: setting the loaded theme `empty` succeeds; the themes
list is untouched. -/
theorem set_theme_known_name_witness :
    set_theme emptyThemeMgr "empty".toList
      = ({ emptyThemeMgr with current_theme := "empty".toList }, true) :=
  (set_theme_known_name emptyThemeMgr "empty".toList).2.1 (by decide)

theorem renderSegs_lit_ne_empty (colors : TransVal) (s : String) (rest : List Seg)
    (hs : s.toList ≠ []) :
    renderSegs colors (Seg.lit s :: rest) ≠ some [] := by
  unfold renderSegs
  cases h : renderSegs colors rest with
  | none => simp
  | some val =>
    intro hc
    have h2 : s.toList ++ val = [] := Option.some.inj hc
    exact hs (List.append_eq_nil.mp h2).1

/-- C5 (amended): `get_theme_stylesheet` returns the empty string when
the resolved name (the argument, or `current_theme` for a missing/empty
argument) matches no loaded theme, or when the matched theme is falsy
(the empty JSON object); otherwise it renders the stylesheet template
with `colors.get(key, default)` for each placeholder — the entry from
the theme's colors dict when the key is present, the hard-coded default
otherwise. -/
theorem get_theme_stylesheet_fill (mgr : ThemeManager) (theme_name : Option (List Char)) :
    (get_theme mgr (resolveThemeName mgr theme_name) = none →
      get_theme_stylesheet mgr theme_name = some []) ∧
    (∀ t, get_theme mgr (resolveThemeName mgr theme_name) = some t →
      pyFalsy t = true → get_theme_stylesheet mgr theme_name = some []) ∧
    (∀ t, get_theme mgr (resolveThemeName mgr theme_name) = some t →
      pyFalsy t = false →
      ∀ colors, dictGet t "colors".toList (TransVal.dict TransEntries.nil) = some colors →
        get_theme_stylesheet mgr theme_name = renderSegs colors stylesheetTemplate) ∧
    (∀ (ces : TransEntries) (k d : List Char) (v : TransVal),
      lookupEntries ces k = some v →
      dictGet (TransVal.dict ces) k (TransVal.str d) = some v) ∧
    (∀ (ces : TransEntries) (k d : List Char),
      lookupEntries ces k = none →
      dictGet (TransVal.dict ces) k (TransVal.str d) = some (TransVal.str d)) := by
  refine ⟨?_, ?_, ?_, ?_, ?_⟩
  · intro h
    simp [get_theme_stylesheet, h]
  · intro t ht hf
    simp [get_theme_stylesheet, ht, hf]
  · intro t ht hf colors hc
    have hc2 : dictGet t ['c', 'o', 'l', 'o', 'r', 's'] (TransVal.dict TransEntries.nil)
        = some colors := hc
    simp [get_theme_stylesheet, ht, hf, hc2]
  · intro ces k d v hv
    simp [dictGet, hv]
  · intro ces k d hv
    simp [dictGet, hv]

/-- Witness for C5: a name matching no loaded theme yields the empty
stylesheet. -/
theorem get_theme_stylesheet_fill_witness :
    (get_theme emptyThemeMgr (resolveThemeName emptyThemeMgr (some "nope".toList)) = none ∧
      get_theme_stylesheet emptyThemeMgr (some "nope".toList) = some []) :=
  ⟨by decide,
    (get_theme_stylesheet_fill emptyThemeMgr (some "nope".toList)).1 (by decide)⟩

/-- Counterexample to C5 as stated: the name `empty` matches a loaded
theme (the empty JSON object), but `get_theme_stylesheet` returns the
empty string (`if not theme`), not the template filled with the default
colors, which is non-empty. -/
theorem get_theme_stylesheet_empty_theme :
    (get_theme emptyThemeMgr (resolveThemeName emptyThemeMgr (some "empty".toList))
        = some (TransVal.dict TransEntries.nil) ∧
      get_theme_stylesheet emptyThemeMgr (some "empty".toList) = some [] ∧
      renderSegs (TransVal.dict TransEntries.nil) stylesheetTemplate ≠ some []) := by
  refine ⟨by decide, by decide, ?_⟩
  exact renderSegs_lit_ne_empty _ _ _ (by decide)
